import Mathlib

set_option maxHeartbeats 1000000
set_option maxRecDepth 100000

namespace Wardrobe

/-!
Verification development for the wardrobe-vpn-cli repository.

Python strings are modelled as lists of characters (`Str`); Python byte
strings as lists of naturals below 256; machine integers are naturals with
explicit `% 2^32` where the MD5 computation overflows; fallible code returns
`Except Err` values.  Each definition below transcribes the corresponding
function of `src/cli/utils.py` or `src/cli/wardrobe-cli.py`.
-/

/-- Python strings, modelled as lists of characters. -/
abbrev Str := List Char

/-- Coerce a Lean string literal to the character-list model. -/
def str (s : String) : Str := s.toList

/-- The whitespace characters recognised by Python `str.split()` / `str.strip()`. -/
def isPySpace (c : Char) : Bool :=
  c == ' ' || c == '\t' || c == '\n' || c == '\r' || c == '\x0b' || c == '\x0c'

/-- Scanner core of Python `str.replace` for a non-empty pattern: left-to-right,
leftmost match, non-overlapping (after a match the scan resumes past the
inserted value).  The fuel argument is instantiated with the length of the
scanned string, which bounds the number of steps; the `0` case is unreachable
for that instantiation. -/
def replaceFuel (pat val : Str) : Nat → Str → Str
  | _, [] => []
  | 0, s => s
  | fuel+1, c :: rest =>
    if pat.isPrefixOf (c :: rest) then
      val ++ replaceFuel pat val fuel (List.drop (pat.length - 1) rest)
    else
      c :: replaceFuel pat val fuel rest

/-- Python `s.replace(pat, val)` (all occurrences).  An empty pattern inserts
`val` at every position, as CPython does. -/
def pyReplace (s pat val : Str) : Str :=
  if pat = [] then
    val ++ (s.map (fun c => c :: val)).flatten
  else
    replaceFuel pat val s.length s

/-- Python `pat in s` substring test: some position of `s` starts with `pat`. -/
def containsPat (s pat : Str) : Bool :=
  (List.range (s.length + 1)).any (fun k => pat.isPrefixOf (List.drop k s))

/-- Helper for `splitWs`: accumulates the current word (reversed). -/
def splitWsAux : Str → Str → List Str
  | [], acc => if acc = [] then [] else [acc.reverse]
  | c :: r, acc =>
    if isPySpace c then
      if acc = [] then splitWsAux r [] else acc.reverse :: splitWsAux r []
    else
      splitWsAux r (c :: acc)

/-- Python `str.split()` with no arguments: split on runs of whitespace,
discarding leading and trailing whitespace. -/
def splitWs (s : Str) : List Str := splitWsAux s []

/-- Python `str.strip()`: drop leading and trailing whitespace. -/
def stripWs (s : Str) : Str :=
  ((s.dropWhile (fun c => isPySpace c)).reverse.dropWhile (fun c => isPySpace c)).reverse

/-- Python `str.lower()` (ASCII case fold suffices for the names involved). -/
def lowerStr (s : Str) : Str := s.map Char.toLower

example : pyReplace (str "abcabc") (str "bc") (str "X") = str "aXaX" := by decide
example : pyReplace (str "aab") (str "ab") (str "b") = str "ab" := by decide
example : pyReplace (str "ab") (str "") (str "x") = str "xaxbx" := by decide
example : containsPat (str "hello vpn") (str "vpn") = true := by decide
example : containsPat (str "hello") (str "vpn") = false := by decide
example : splitWs (str "  ssh-rsa  AAAA  comment ") =
    [str "ssh-rsa", str "AAAA", str "comment"] := by decide
example : stripWs (str "  a b  ") = str "a b" := by decide

/-!  Error classes of `src/cli/utils.py`.  `UserCancelled` and `WardrobeError`
never arise in the functions embedded below; the top-level dispatcher (claim
C8) models the full exception hierarchy separately. -/

/-- The error classes raised by the embedded functions: the two domain
classes, and `otherError` for Python built-in exceptions (for example the
`ValueError` a failing `json.loads` raises) that none of the domain
`except` clauses catch. -/
inductive Err where
  | inputError (msg : Str)
  | infraError (msg : Str)
  | otherError (msg : Str)
deriving DecidableEq, Repr

/-- Decidable equality on `Except`, so that concrete runs of the embedded
functions can be checked by `decide`. -/
instance {ε α : Type} [DecidableEq ε] [DecidableEq α] : DecidableEq (Except ε α) := fun x y =>
  match x, y with
  | Except.ok a, Except.ok b =>
    if h : a = b then isTrue (congrArg Except.ok h)
    else isFalse (fun hh => h (Except.ok.inj hh))
  | Except.error a, Except.error b =>
    if h : a = b then isTrue (congrArg Except.error h)
    else isFalse (fun hh => h (Except.error.inj hh))
  | Except.ok _, Except.error _ => isFalse (fun hh => Except.noConfusion hh)
  | Except.error _, Except.ok _ => isFalse (fun hh => Except.noConfusion hh)

/-!  Base64 decoding, as used by `get_md5_fingerprint` on the second
whitespace-separated field of a public key file.  The model accepts canonical
base64 (length a multiple of four, padding only at the end); on such input it
agrees with Python's `base64.b64decode`.  Non-canonical input is mapped to
`none` (the claims only quantify over valid base64 payloads). -/

/-- Index of a character in the standard base64 alphabet. -/
def b64Index (c : Char) : Option Nat :=
  if 'A' ≤ c ∧ c ≤ 'Z' then some (c.toNat - 'A'.toNat)
  else if 'a' ≤ c ∧ c ≤ 'z' then some (c.toNat - 'a'.toNat + 26)
  else if '0' ≤ c ∧ c ≤ '9' then some (c.toNat - '0'.toNat + 52)
  else if c = '+' then some 62
  else if c = '/' then some 63
  else none

/-- Decode canonical base64 four characters at a time. -/
def b64decode : Str → Option (List Nat)
  | [] => some []
  | a :: b :: c :: d :: rest =>
    match b64Index a, b64Index b with
    | some ia, some ib =>
      if c = '=' then
        if d = '=' ∧ rest = [] then some [ia * 4 + ib / 16] else none
      else
        match b64Index c with
        | some ic =>
          if d = '=' then
            if rest = [] then some [ia * 4 + ib / 16, ib % 16 * 16 + ic / 4] else none
          else
            match b64Index d with
            | some jd =>
              match b64decode rest with
              | some bs => some ((ia * 4 + ib / 16) :: (ib % 16 * 16 + ic / 4) :: (ic % 4 * 64 + jd) :: bs)
              | none => none
            | none => none
        | none => none
    | _, _ => none
  | _ => none

/-!  MD5 (RFC 1321), operating on byte lists, words as naturals reduced
modulo `2^32`.  This is the digest `hashlib.md5` computes. -/

/-- Reduce to a 32-bit word. -/
def w32 (n : Nat) : Nat := n % 4294967296

/-- 32-bit bitwise complement. -/
def bnot32 (x : Nat) : Nat := 4294967295 - x % 4294967296

/-- 32-bit left rotation. -/
def rotl32 (x s : Nat) : Nat :=
  w32 (x % 4294967296 * 2 ^ s) + x % 4294967296 / 2 ^ (32 - s)

/-- Round function F (rounds 0-15). -/
def mdF (b c d : Nat) : Nat := Nat.lor (Nat.land b c) (Nat.land (bnot32 b) d)

/-- Round function G (rounds 16-31). -/
def mdG (b c d : Nat) : Nat := Nat.lor (Nat.land d b) (Nat.land (bnot32 d) c)

/-- Round function H (rounds 32-47). -/
def mdH (b c d : Nat) : Nat := Nat.xor b (Nat.xor c d)

/-- Round function I (rounds 48-63). -/
def mdI (b c d : Nat) : Nat := Nat.xor c (Nat.lor b (bnot32 d))

/-- The 64 sine-derived MD5 constants. -/
def md5K : List Nat :=
  [0xd76aa478, 0xe8c7b756, 0x242070db, 0xc1bdceee,
   0xf57c0faf, 0x4787c62a, 0xa8304613, 0xfd469501,
   0x698098d8, 0x8b44f7af, 0xffff5bb1, 0x895cd7be,
   0x6b901122, 0xfd987193, 0xa679438e, 0x49b40821,
   0xf61e2562, 0xc040b340, 0x265e5a51, 0xe9b6c7aa,
   0xd62f105d, 0x02441453, 0xd8a1e681, 0xe7d3fbc8,
   0x21e1cde6, 0xc33707d6, 0xf4d50d87, 0x455a14ed,
   0xa9e3e905, 0xfcefa3f8, 0x676f02d9, 0x8d2a4c8a,
   0xfffa3942, 0x8771f681, 0x6d9d6122, 0xfde5380c,
   0xa4beea44, 0x4bdecfa9, 0xf6bb4b60, 0xbebfbc70,
   0x289b7ec6, 0xeaa127fa, 0xd4ef3085, 0x04881d05,
   0xd9d4d039, 0xe6db99e5, 0x1fa27cf8, 0xc4ac5665,
   0xf4292244, 0x432aff97, 0xab9423a7, 0xfc93a039,
   0x655b59c3, 0x8f0ccc92, 0xffeff47d, 0x85845dd1,
   0x6fa87e4f, 0xfe2ce6e0, 0xa3014314, 0x4e0811a1,
   0xf7537e82, 0xbd3af235, 0x2ad7d2bb, 0xeb86d391]

/-- The 64 per-round rotation amounts. -/
def md5S : List Nat :=
  [7, 12, 17, 22, 7, 12, 17, 22, 7, 12, 17, 22, 7, 12, 17, 22,
   5, 9, 14, 20, 5, 9, 14, 20, 5, 9, 14, 20, 5, 9, 14, 20,
   4, 11, 16, 23, 4, 11, 16, 23, 4, 11, 16, 23, 4, 11, 16, 23,
   6, 10, 15, 21, 6, 10, 15, 21, 6, 10, 15, 21, 6, 10, 15, 21]

/-- The four 32-bit MD5 state words. -/
structure MD5State where
  a : Nat
  b : Nat
  c : Nat
  d : Nat

/-- Little-endian 32-bit word `g` of a 64-byte chunk. -/
def chunkWord (chunk : List Nat) (g : Nat) : Nat :=
  chunk.getD (4 * g) 0 + 256 * chunk.getD (4 * g + 1) 0 +
    65536 * chunk.getD (4 * g + 2) 0 + 16777216 * chunk.getD (4 * g + 3) 0

/-- One of the 64 MD5 operations. -/
def md5Step (chunk : List Nat) (st : MD5State) (i : Nat) : MD5State :=
  let f :=
    if i < 16 then mdF st.b st.c st.d
    else if i < 32 then mdG st.b st.c st.d
    else if i < 48 then mdH st.b st.c st.d
    else mdI st.b st.c st.d
  let g :=
    if i < 16 then i
    else if i < 32 then (5 * i + 1) % 16
    else if i < 48 then (3 * i + 5) % 16
    else 7 * i % 16
  let tmp := w32 (f + st.a + md5K.getD i 0 + chunkWord chunk g)
  ⟨st.d, w32 (st.b + rotl32 tmp (md5S.getD i 0)), st.b, st.c⟩

/-- Process one 64-byte chunk. -/
def md5Chunk (st : MD5State) (chunk : List Nat) : MD5State :=
  let r := (List.range 64).foldl (md5Step chunk) st
  ⟨w32 (st.a + r.a), w32 (st.b + r.b), w32 (st.c + r.c), w32 (st.d + r.d)⟩

/-- Process the padded message 64 bytes at a time; the fuel is instantiated
with the padded length, which bounds the number of chunks. -/
def md5Chunks : Nat → MD5State → List Nat → MD5State
  | _, st, [] => st
  | 0, st, _ => st
  | fuel + 1, st, msg => md5Chunks fuel (md5Chunk st (msg.take 64)) (msg.drop 64)

/-- Eight little-endian bytes of a (`mod 2^64`) bit length. -/
def leBytes8 (n : Nat) : List Nat :=
  [n % 256, n / 256 % 256, n / 65536 % 256, n / 16777216 % 256,
   n / 4294967296 % 256, n / 1099511627776 % 256,
   n / 281474976710656 % 256, n / 72057594037927936 % 256]

/-- Four little-endian bytes of a 32-bit word. -/
def leBytes4 (n : Nat) : List Nat := [n % 256, n / 256 % 256, n / 65536 % 256, n / 16777216 % 256]

/-- MD5 padding: a `0x80` byte, zeros to 56 mod 64, then the bit length. -/
def md5Pad (msg : List Nat) : List Nat :=
  msg ++ 128 :: List.replicate ((119 - msg.length % 64) % 64) 0 ++ leBytes8 (8 * msg.length)

/-- The 16-byte MD5 digest of a byte list. -/
def md5 (msg : List Nat) : List Nat :=
  let padded := md5Pad msg
  let st := md5Chunks padded.length ⟨0x67452301, 0xefcdab89, 0x98badcfe, 0x10325476⟩ padded
  leBytes4 st.a ++ leBytes4 st.b ++ leBytes4 st.c ++ leBytes4 st.d

/-- Lowercase hex digit. -/
def hexDigit (n : Nat) : Char := (str "0123456789abcdef").getD n '0'

/-- Two lowercase hex characters of a byte. -/
def byteHex (b : Nat) : Str := [hexDigit (b / 16), hexDigit (b % 16)]

/-- `hashlib.md5(...).hexdigest()`: 32 lowercase hex characters. -/
def md5HexDigest (msg : List Nat) : Str := ((md5 msg).map byteHex).flatten

example : md5HexDigest [] = str "d41d8cd98f00b204e9800998ecf8427e" := by decide
example : md5HexDigest [97, 98, 99] = str "900150983cd24fb0d6963f7d28e17f72" := by decide
example : b64decode (str "AAAA") = some [0, 0, 0] := by decide
example : b64decode (str "c3No") = some [115, 115, 104] := by decide
example : b64decode (str "c3N=") = some [115, 115] := by decide
example : b64decode (str "c3") = none := by decide

/-!  `get_md5_fingerprint` (src/cli/utils.py, lines 213-226). -/

/-- Group a string two characters at a time: the slices `md5_hex[i:i+2]`
for `i in range(0, 32, 2)` taken over the 32-character hex digest. -/
def slices2 : Str → List Str
  | [] => []
  | [c] => [[c]]
  | a :: b :: r => [a, b] :: slices2 r

/-- The colon-grouped rendering `":".join(md5_hex[i:i+2] ...)`. -/
def fingerprintOfBytes (keyBytes : List Nat) : Str :=
  List.intercalate (str ":") (slices2 (md5HexDigest keyBytes))

/-- `get_md5_fingerprint`: split the file content on whitespace, require a
second field, base64-decode it, and render the MD5 digest of the decoded
bytes as colon-separated hex pairs.  The function's own `except` clause
re-wraps every parse failure (including its inner `InputError("Invalid Key")`)
as an `InputError`. -/
def get_md5_fingerprint (content : Str) : Except Err Str :=
  match splitWs (stripWs content) with
  | _ :: field1 :: _ =>
    match b64decode field1 with
    | some keyBytes => Except.ok (fingerprintOfBytes keyBytes)
    | none => Except.error (Err.inputError (str "failed to read/parse ssh key"))
  | _ => Except.error (Err.inputError (str "failed to read/parse ssh key"))

/-!  `validate_ssh_key` (src/cli/utils.py, lines 146-161). -/

/-- The on-disk state of the public key file as `validate_ssh_key` can
observe it: absent, present but unreadable, or readable with some content. -/
inductive KeyFile where
  | missing
  | unreadable
  | readable (content : Str)
deriving DecidableEq, Repr

/-- The accepted key-type markers of `content.startswith((...))`. -/
def sshPrefixes : List Str :=
  [str "ssh-rsa", str "ssh-ed25519", str "ssh-dss", str "ecdsa-sha2"]

/-- `validate_ssh_key`: existence check, readability check, then a
`startswith` test on the stripped content; nothing else is validated. -/
def validate_ssh_key (f : KeyFile) : Except Err Unit :=
  match f with
  | KeyFile.missing => Except.error (Err.inputError (str "SSH key not found at path"))
  | KeyFile.unreadable => Except.error (Err.inputError (str "Error reading SSH key"))
  | KeyFile.readable content =>
    if sshPrefixes.any (fun p => p.isPrefixOf (stripWs content)) then Except.ok ()
    else Except.error (Err.inputError (str "File does not appear to be a valid SSH public key"))

/-!  `find_existing_vpns` (src/cli/utils.py, lines 169-210).  The transport
call and the non-200 guard raise before the filtering loop; the loop itself
runs over the droplet list of a 200 response, which is what claim C3 is
about. -/

/-- The droplet fields the scanner reads. -/
structure Droplet where
  name : Str
  tags : List Str
  dropletId : Nat
  status : Str
  created_at : Str
  regionName : Str
  size_slug : Str
  networksV4 : List Str
deriving DecidableEq, Repr

/-- The record appended per matching droplet. -/
structure VpnInfo where
  infoId : Nat
  name : Str
  status : Str
  created : Str
  region : Str
  size : Str
  ip : Str
deriving DecidableEq, Repr

/-- The per-droplet extraction: `created_at[:10]`, first v4 address or
`"No IP"`. -/
def extractInfo (d : Droplet) : VpnInfo :=
  { infoId := d.dropletId, name := d.name, status := d.status,
    created := d.created_at.take 10, region := d.regionName, size := d.size_slug,
    ip := match d.networksV4 with | [] => str "No IP" | ipAddr :: _ => ipAddr }

/-- The match condition exactly as written in the source:
`"wardrobe" in name or "vpn" in name and any("wardrobe" in tag ...) or
any("wardrobe-vpn" in tag ...)`, on the lowercased name.  Lean's `&&` binds
tighter than `||` just as Python's `and` binds tighter than `or`. -/
def dropletMatches (d : Droplet) : Bool :=
  let name := lowerStr d.name
  containsPat name (str "wardrobe") ||
    containsPat name (str "vpn") && d.tags.any (fun tag => containsPat tag (str "wardrobe")) ||
    d.tags.any (fun tag => containsPat tag (str "wardrobe-vpn"))

/-- The filtering loop of `find_existing_vpns` over the droplets of a 200
response. -/
def find_existing_vpns (droplets : List Droplet) : List VpnInfo :=
  droplets.foldl (fun acc d => if dropletMatches d then acc ++ [extractInfo d] else acc) []

/-!  `wait_for_http` (src/cli/utils.py, lines 82-95). -/

/-- One poll attempt: an exception during the request (swallowed by the
loop), or a response whose optional `status` attribute defaults to 200, as
in `getattr(resp, 'status', 200)`. -/
inductive Poll where
  | exc
  | resp (status : Option Nat)

/-- Did a poll observe a success-range status? -/
def pollOk : Poll → Bool
  | Poll.exc => false
  | Poll.resp st => 200 ≤ st.getD 200 && st.getD 200 < 400

/-- The polling loop; `outcomes t` is the outcome of the poll issued at
elapsed time `t`.  The loop polls while the elapsed time is below the
deadline and sleeps `interval` between attempts; the fuel argument is
instantiated so that it cannot run out when the interval is positive. -/
def waitGo (outcomes : Nat → Poll) (timeout interval : Nat) : Nat → Nat → Bool
  | _, 0 => false
  | t, fuel + 1 =>
    if t < timeout then
      if pollOk (outcomes t) then true
      else waitGo outcomes timeout interval (t + interval) fuel
    else false

/-- `wait_for_http` under the timing model in which each loop iteration
advances the clock by exactly `interval` (the poll itself takes no time):
it returns a Bool and never raises, every per-poll exception being swallowed
by the loop body. -/
def wait_for_http (outcomes : Nat → Poll) (timeout interval : Nat) : Bool :=
  waitGo outcomes timeout interval 0 (timeout + 1)

/-!  `set_do_ssh_key` (src/cli/utils.py, lines 230-289). -/

/-- Outcome of `GET /v2/account/keys/{fingerprint}`. -/
inductive GetResult where
  | exc (msg : Str)
  | resp (status : Nat) (text : Str)
deriving DecidableEq, Repr

/-- Outcome of `POST /v2/account/keys`; `fp` is the value that the lookup
`c.json()["ssh_key"]["fingerprint"]` yields when it succeeds (`none` models a
body on which that lookup raises). -/
inductive CreateResult where
  | exc (msg : Str)
  | resp (status : Nat) (fp : Option Str) (text : Str)
deriving DecidableEq, Repr

/-- The create half of `set_do_ssh_key`.  The whole block sits in a `try`
whose `except Exception` clause re-wraps any inner raise (the two inner
`InfraError` raises, a JSON lookup failure, or a transport exception) as an
`InfraError`, so every failure of this block is infrastructure-class. -/
def createKeyBlock (localFp : Str) (c : CreateResult) : Except Err Str :=
  match c with
  | CreateResult.exc m =>
    Except.error (Err.infraError (str "DigitalOcean create key request failed: " ++ m))
  | CreateResult.resp status fp text =>
    if status = 200 ∨ status = 201 ∨ status = 202 then
      match fp with
      | some newFp =>
        if newFp = [] then
          Except.error (Err.infraError
            (str "DigitalOcean create key request failed: DigitalOcean create key succeeded but fingerprint missing in response."))
        else Except.ok newFp
      | none =>
        Except.error (Err.infraError (str "DigitalOcean create key request failed: KeyError"))
    else if status = 422 then Except.ok localFp
    else
      Except.error (Err.infraError
        (str "DigitalOcean create key request failed: DigitalOcean create key failed: HTTP " ++
          (Nat.repr status).toList ++ str " - " ++ text.take 200))

/-- `set_do_ssh_key`: read the key file, compute the local fingerprint, try
the GET by fingerprint, and only on a 404 fall through to the create block.
The returned Bool records whether the POST was issued. -/
def set_do_ssh_key (content : Str) (g : GetResult) (c : CreateResult) :
    Bool × Except Err Str :=
  match get_md5_fingerprint content with
  | Except.error e => (false, Except.error e)
  | Except.ok fingerprint =>
    match g with
    | GetResult.exc m =>
      (false, Except.error (Err.infraError
        (str "DigitalOcean API error retrieving key by fingerprint: " ++ m)))
    | GetResult.resp status text =>
      if status = 200 then (false, Except.ok fingerprint)
      else if ¬(status = 200 ∨ status = 404) then
        (false, Except.error (Err.infraError
          (str "DigitalOcean GET key failed: HTTP " ++ (Nat.repr status).toList ++
            str " - " ++ text.take 200)))
      else (true, createKeyBlock fingerprint c)

example :
    get_md5_fingerprint (str "ssh-rsa AAAA comment") =
      Except.ok (str "69:3e:9a:f8:4d:3d:fc:c7:1e:64:0e:00:5b:dc:5e:2e") := by decide

/-!  Template rendering (`generate_terraform_config`, src/cli/wardrobe-cli.py
lines 296-325): the substitution dict in its insertion order, and the loop
`tf_content = tf_content.replace("${" + name + "}", value)`. -/

/-- The seven substitution values assembled by `generate_terraform_config`. -/
structure Subs where
  region : Str
  timestamp : Str
  createdAt : Str
  deploymentName : Str
  sshPublicKey : Str
  yourIp : Str
  adminPassword : Str
deriving DecidableEq, Repr

/-- The substitution dict in its Python insertion order. -/
def substPairs (s : Subs) : List (Str × Str) :=
  [(str "REGION", s.region), (str "TIMESTAMP", s.timestamp),
   (str "CREATED_AT", s.createdAt), (str "DEPLOYMENT_NAME", s.deploymentName),
   (str "SSH_PUBLIC_KEY", s.sshPublicKey), (str "YOUR_IP", s.yourIp),
   (str "ADMIN_PASSWORD", s.adminPassword)]

/-- The placeholder names, in dict order. -/
def declaredNames : List Str :=
  [str "REGION", str "TIMESTAMP", str "CREATED_AT", str "DEPLOYMENT_NAME",
   str "SSH_PUBLIC_KEY", str "YOUR_IP", str "ADMIN_PASSWORD"]

/-- The placeholder token for a name: a dollar sign, an opening brace, the
name, a closing brace. -/
def tokOf (name : Str) : Str := '$' :: '{' :: (name ++ ['}'])

/-- The rendering loop: replace each placeholder token by its value, in dict
order, each step replacing all occurrences present at that step. -/
def renderTemplate (tmpl : Str) (s : Subs) : Str :=
  (substPairs s).foldl (fun acc pv => pyReplace acc (tokOf pv.1) pv.2) tmpl

/-!  `generate_terraform_config` (src/cli/wardrobe-cli.py, lines 274-328):
workspace reset and the two rendered files. -/

/-- Contents of the `tf_output` workspace directory: `none` when the
directory does not exist, otherwise its files as (name, content) pairs. -/
abbrev Workspace := Option (List (Str × Str))

/-- Environment of one `generate_terraform_config` call: the template files
and the effectful lookups the function performs, each `none` when the
corresponding read raises. -/
structure RenderEnv where
  mainTemplate : Option Str
  cloudInitTemplate : Option Str
  userIp : Option Str
  sshKeyContent : Option Str
  region : Str
  nowIso : Str
  nowHuman : Str
  vpnName : Str
  adminPassword : Str

/-- The substitution record built from the environment once the IP lookup and
the key read have succeeded. -/
def mkSubs (env : RenderEnv) (ip key : Str) : Subs :=
  { region := env.region, timestamp := env.nowIso, createdAt := env.nowHuman,
    deploymentName := env.vpnName, sshPublicKey := stripWs key,
    yourIp := ip, adminPassword := env.adminPassword }

/-- `generate_terraform_config`: check the main template, then discard and
recreate the workspace (`shutil.rmtree` + `mkdir`), then resolve the caller
IP, read the key, render and write `main.tf`, read the cloud-init template,
render and write it.  Returns the final workspace state together with the
result (the resolved output path on success); every failure after the check
is wrapped as an `InfraError` by the function's `except` clause. -/
def generate_terraform_config (env : RenderEnv) (ws : Workspace) :
    Workspace × Except Err Str :=
  match env.mainTemplate with
  | none => (ws, Except.error (Err.infraError (str "Terraform template not found")))
  | some mainT =>
    match env.userIp with
    | none =>
      (some [], Except.error (Err.infraError
        (str "Failed to generate Terraform files: could not detect your IP address")))
    | some ip =>
      match env.sshKeyContent with
      | none =>
        (some [], Except.error (Err.infraError
          (str "Failed to generate Terraform files: error reading SSH key")))
      | some key =>
        let subs := mkSubs env ip key
        let mainTf := renderTemplate mainT subs
        match env.cloudInitTemplate with
        | none =>
          (some [(str "main.tf", mainTf)],
           Except.error (Err.infraError
             (str "Failed to generate Terraform files: cloud-init template missing")))
        | some ciT =>
          (some [(str "main.tf", mainTf),
                 (str "digitalocean-cloud-init.yaml", renderTemplate ciT subs)],
           Except.ok (str "tf_output"))

/-!  `deploy_terraform` (src/cli/wardrobe-cli.py, lines 371-405). -/

/-- Result of a completed external process; `subprocess.run` with
`check=True` raises `CalledProcessError` exactly when the exit code is
non-zero. -/
structure ProcResult where
  exitCode : Nat
  stdout : Str
  stderr : Str
deriving DecidableEq, Repr

/-- A subprocess invocation: the binary may be absent
(`FileNotFoundError`) or run to completion. -/
inductive RunRes where
  | notFound
  | ran (r : ProcResult)
deriving DecidableEq, Repr

/-- The Python truthiness chain `e.stderr or e.stdout or str(e)`. -/
def diagText (r : ProcResult) (fallback : Str) : Str :=
  if r.stderr ≠ [] then r.stderr else if r.stdout ≠ [] then r.stdout else fallback

/-- The externally visible actions `deploy_terraform` can perform, in order.
There is no rollback/destroy action anywhere in the function. -/
inductive DeployAction where
  | runApply
  | deletePlanFile
  | runOutput
deriving DecidableEq, Repr

/-- The structured outputs parsed from `terraform output -json`. -/
abbrev TfOutputs := List (Str × Str)

/-- `deploy_terraform`: apply the plan file, delete it only after a
successful apply, then read and parse the structured outputs.  Returns the
trace of actions performed, whether the plan file still exists, and the
result.  A `json.loads` failure propagates as a `ValueError`
(`Err.otherError`), outside the function's two `except` clauses. -/
def deploy_terraform (planExists : Bool) (applyRes outputRes : RunRes)
    (parse : Str → Option TfOutputs) :
    List DeployAction × Bool × Except Err TfOutputs :=
  match applyRes with
  | RunRes.notFound =>
    ([DeployAction.runApply], planExists,
     Except.error (Err.infraError (str "Terraform not found. Install it and ensure it is on PATH.")))
  | RunRes.ran ar =>
    if ar.exitCode ≠ 0 then
      ([DeployAction.runApply], planExists,
       Except.error (Err.infraError
         (str "Terraform deployment failed: " ++ diagText ar (str "CalledProcessError"))))
    else
      let acts := if planExists then [DeployAction.runApply, DeployAction.deletePlanFile]
                  else [DeployAction.runApply]
      match outputRes with
      | RunRes.notFound =>
        (acts ++ [DeployAction.runOutput], false,
         Except.error (Err.infraError (str "Terraform not found. Install it and ensure it is on PATH.")))
      | RunRes.ran outr =>
        if outr.exitCode ≠ 0 then
          (acts ++ [DeployAction.runOutput], false,
           Except.error (Err.infraError
             (str "Terraform deployment failed: " ++ diagText outr (str "CalledProcessError"))))
        else
          match parse outr.stdout with
          | some outs => (acts ++ [DeployAction.runOutput], false, Except.ok outs)
          | none =>
            (acts ++ [DeployAction.runOutput], false,
             Except.error (Err.otherError (str "json.loads failed")))

/-!  The top-level dispatcher `main` (src/cli/wardrobe-cli.py, lines
539-562): the `except` chain and its exit codes. -/

/-- Exception classes that can escape the `try` body of `main`.  The four
domain errors each derive directly from `Exception`; `KeyboardInterrupt`
derives only from `BaseException`. -/
inductive ExcClass where
  | keyboardInterrupt
  | userCancelled
  | inputError
  | infraError
  | wardrobeError
  | otherException
deriving DecidableEq, Repr

/-- The classes named by the `except` clauses of `main`, in source order. -/
inductive Clause where
  | keyboardInterrupt
  | userCancelled
  | inputError
  | infraError
  | wardrobeError
  | exceptionBase
deriving DecidableEq, Repr

/-- Python's subclass test restricted to the classes above: every class but
`KeyboardInterrupt` is a subclass of `Exception`; no other subclass relations
hold between them. -/
def catches : ExcClass → Clause → Bool
  | ExcClass.keyboardInterrupt, Clause.keyboardInterrupt => true
  | ExcClass.userCancelled, Clause.userCancelled => true
  | ExcClass.inputError, Clause.inputError => true
  | ExcClass.infraError, Clause.infraError => true
  | ExcClass.wardrobeError, Clause.wardrobeError => true
  | ExcClass.keyboardInterrupt, Clause.exceptionBase => false
  | _, Clause.exceptionBase => true
  | _, _ => false

/-- The `except` chain of `main`, in source order, with the exit code each
clause passes to `sys.exit`. -/
def mainHandlers : List (Clause × Nat) :=
  [(Clause.keyboardInterrupt, 0), (Clause.userCancelled, 0), (Clause.inputError, 2),
   (Clause.infraError, 3), (Clause.wardrobeError, 1), (Clause.exceptionBase, 1)]

/-- Outcome of the `try` body: normal completion reaches one of the
`sys.exit(0)` calls, or an exception escapes. -/
inductive RunOutcome where
  | completed
  | raised (e : ExcClass)
deriving DecidableEq, Repr

/-- Dispatch to the first matching `except` clause. -/
def firstCatch (e : ExcClass) : List (Clause × Nat) → Option Nat
  | [] => none
  | (cl, code) :: rest => if catches e cl then some code else firstCatch e rest

/-- Process exit code of `main`. -/
def mainExitCode : RunOutcome → Option Nat
  | RunOutcome.completed => some 0
  | RunOutcome.raised e => firstCatch e mainHandlers

/-- The scanner predicate as the claim's reference disjunction spells it:
(lowercased name contains "wardrobe") OR (lowercased name contains "vpn" AND
some tag contains "wardrobe") OR (some tag contains "wardrobe-vpn"). -/
def refMatch (d : Droplet) : Bool :=
  (containsPat (lowerStr d.name) (str "wardrobe")) ||
    ((containsPat (lowerStr d.name) (str "vpn")) &&
      (d.tags.any (fun t => containsPat t (str "wardrobe")))) ||
    (d.tags.any (fun t => containsPat t (str "wardrobe-vpn")))

/-- The filtering loop is an accumulator form of filter-then-map. -/
theorem foldl_filterAppend (p : Droplet → Bool) (f : Droplet → VpnInfo) :
    ∀ (l : List Droplet) (acc : List VpnInfo),
      l.foldl (fun acc d => if p d then acc ++ [f d] else acc) acc =
        acc ++ (l.filter p).map f := by
  intro l
  induction l with
  | nil => intro acc; simp
  | cons d t ih =>
    intro acc
    by_cases h : p d = true
    · simp [List.foldl, h, ih, List.filter_cons]
    · simp at h
      simp [List.foldl, h, ih, List.filter_cons]

/-- Claim C3: the scanner's match predicate is the reference disjunction, and
a droplet contributes to the returned list exactly when it holds. -/
theorem c3_find_existing_vpns_match :
    (∀ d : Droplet, dropletMatches d = refMatch d) ∧
    (∀ droplets : List Droplet,
      find_existing_vpns droplets = (droplets.filter refMatch).map extractInfo) := by
  have hpred : ∀ d : Droplet, dropletMatches d = refMatch d := fun _ => rfl
  refine ⟨hpred, ?_⟩
  intro droplets
  unfold find_existing_vpns
  have : droplets.filter dropletMatches = droplets.filter refMatch := by
    apply List.filter_congr
    intro d _
    exact hpred d
  rw [foldl_filterAppend dropletMatches extractInfo droplets [], this]
  simp

/-- A readable key whose stripped content starts with an accepted marker
passes validation. -/
theorem validate_readable_pos (c : Str)
    (hp : sshPrefixes.any (fun p => p.isPrefixOf (stripWs c)) = true) :
    validate_ssh_key (KeyFile.readable c) = Except.ok () := by
  show (if (sshPrefixes.any fun p => List.isPrefixOf p (stripWs c)) = true then Except.ok ()
    else Except.error (Err.inputError
      (str "File does not appear to be a valid SSH public key"))) = Except.ok ()
  rw [if_pos hp]

/-- A readable key whose stripped content starts with no accepted marker is
rejected with an input-class error. -/
theorem validate_readable_neg (c : Str)
    (hp : sshPrefixes.any (fun p => p.isPrefixOf (stripWs c)) = false) :
    validate_ssh_key (KeyFile.readable c) =
      Except.error (Err.inputError (str "File does not appear to be a valid SSH public key")) := by
  show (if (sshPrefixes.any fun p => List.isPrefixOf p (stripWs c)) = true then Except.ok ()
    else Except.error (Err.inputError
      (str "File does not appear to be a valid SSH public key"))) = _
  rw [if_neg]
  intro hc
  rw [hp] at hc
  exact Bool.false_ne_true hc

/-- Claim C9: `validate_ssh_key` raises an input-class error exactly when the
file is missing, unreadable, or its stripped content starts with none of the
four accepted markers; any readable file with an accepted marker passes with
no further validation. -/
theorem c9_validate_ssh_key_contract :
    ∀ f : KeyFile,
      ((∃ m, validate_ssh_key f = Except.error (Err.inputError m)) ↔
        (f = KeyFile.missing ∨ f = KeyFile.unreadable ∨
          ∃ c, f = KeyFile.readable c ∧
            sshPrefixes.any (fun p => p.isPrefixOf (stripWs c)) = false)) ∧
      (∀ e, validate_ssh_key f = Except.error e → ∃ m, e = Err.inputError m) ∧
      (∀ c, f = KeyFile.readable c →
        sshPrefixes.any (fun p => p.isPrefixOf (stripWs c)) = true →
        validate_ssh_key f = Except.ok ()) := by
  intro f
  refine ⟨⟨?_, ?_⟩, ?_, ?_⟩
  · rintro ⟨m, hm⟩
    cases f with
    | missing => exact Or.inl rfl
    | unreadable => exact Or.inr (Or.inl rfl)
    | readable c =>
      refine Or.inr (Or.inr ⟨c, rfl, ?_⟩)
      cases hp : sshPrefixes.any (fun p => p.isPrefixOf (stripWs c)) with
      | false => rfl
      | true =>
        rw [validate_readable_pos c hp] at hm
        exact Except.noConfusion hm
  · rintro (h | h | ⟨c, hc, hfail⟩)
    · exact ⟨str "SSH key not found at path", by rw [h]; rfl⟩
    · exact ⟨str "Error reading SSH key", by rw [h]; rfl⟩
    · exact ⟨str "File does not appear to be a valid SSH public key",
        by rw [hc]; exact validate_readable_neg c hfail⟩
  · intro e he
    cases f with
    | missing => exact ⟨str "SSH key not found at path", (Except.error.inj he).symm⟩
    | unreadable => exact ⟨str "Error reading SSH key", (Except.error.inj he).symm⟩
    | readable c =>
      cases hp : sshPrefixes.any (fun p => p.isPrefixOf (stripWs c)) with
      | true =>
        rw [validate_readable_pos c hp] at he
        exact Except.noConfusion he
      | false =>
        rw [validate_readable_neg c hp] at he
        exact ⟨str "File does not appear to be a valid SSH public key",
          (Except.error.inj he).symm⟩
  · intro c hc hp
    rw [hc]
    exact validate_readable_pos c hp

/-- Witness for C9: a readable file whose content is just the marker (no
base64 payload at all) passes validation. -/
theorem c9_witness :
    validate_ssh_key (KeyFile.readable (str "ssh-rsa")) = Except.ok () :=
  (c9_validate_ssh_key_contract _).2.2 _ rfl (by decide)

/-- The polling loop returns true exactly when some in-budget iteration
observes a success; independent of how the fuel relates to the deadline. -/
theorem waitGo_true_iff (outcomes : Nat → Poll) (timeout interval : Nat) :
    ∀ (fuel t : Nat),
      waitGo outcomes timeout interval t fuel = true ↔
        ∃ j, j < fuel ∧ t + j * interval < timeout ∧
          pollOk (outcomes (t + j * interval)) = true := by
  intro fuel
  induction fuel with
  | zero => intro t; simp [waitGo]
  | succ n ih =>
    intro t
    by_cases ht : t < timeout
    · by_cases hp : pollOk (outcomes t) = true
      · simp only [waitGo, if_pos ht, hp, if_pos rfl]
        constructor
        · intro _
          exact ⟨0, Nat.succ_pos n, by simpa using ht, by simpa using hp⟩
        · intro _; rfl
      · have hstep : waitGo outcomes timeout interval t (n + 1) =
            waitGo outcomes timeout interval (t + interval) n := by
          simp [waitGo, if_pos ht, hp]
        rw [hstep, ih (t + interval)]
        constructor
        · rintro ⟨j, hj, hlt, hok⟩
          refine ⟨j + 1, Nat.succ_lt_succ hj, ?_, ?_⟩
          · have : t + (j + 1) * interval = t + interval + j * interval := by ring
            rw [this]; exact hlt
          · have : t + (j + 1) * interval = t + interval + j * interval := by ring
            rw [this]; exact hok
        · rintro ⟨j, hj, hlt, hok⟩
          cases j with
          | zero => simp at hlt hok; exact absurd hok hp
          | succ j' =>
            refine ⟨j', Nat.lt_of_succ_lt_succ hj, ?_, ?_⟩
            · have : t + interval + j' * interval = t + (j' + 1) * interval := by ring
              rw [this]; exact hlt
            · have : t + interval + j' * interval = t + (j' + 1) * interval := by ring
              rw [this]; exact hok
    · simp only [waitGo, if_neg ht]
      constructor
      · intro h; exact absurd h (by simp)
      · rintro ⟨j, _, hlt, _⟩
        exact absurd (Nat.lt_of_le_of_lt (Nat.le_add_right t (j * interval)) hlt) ht

/-- Claim C6: `wait_for_http` is a total Boolean function (per-poll
exceptions are swallowed inside the loop, so it never raises), and for a
positive interval it returns true exactly when some poll issued before the
deadline observes an effective status in `[200, 400)`; otherwise it returns
false once the timeout elapses. -/
theorem c6_wait_for_http_contract :
    ∀ (outcomes : Nat → Poll) (timeout interval : Nat), 0 < interval →
      (wait_for_http outcomes timeout interval = true ↔
        ∃ j, j * interval < timeout ∧ pollOk (outcomes (j * interval)) = true) := by
  intro outcomes timeout interval hpos
  unfold wait_for_http
  rw [waitGo_true_iff outcomes timeout interval (timeout + 1) 0]
  constructor
  · rintro ⟨j, _, hlt, hok⟩
    exact ⟨j, by simpa using hlt, by simpa using hok⟩
  · rintro ⟨j, hlt, hok⟩
    refine ⟨j, ?_, by simpa using hlt, by simpa using hok⟩
    have hj : j ≤ j * interval := Nat.le_mul_of_pos_right j hpos
    exact Nat.lt_succ_of_le (Nat.le_of_lt (Nat.lt_of_le_of_lt hj hlt))

/-- Witness for C6: with a 10-unit timeout and 3-unit interval, a target that
answers 200 on the poll at time 6 (earlier polls failing) yields true. -/
theorem c6_witness :
    wait_for_http
      (fun t => if t = 6 then Poll.resp (some 200) else Poll.exc) 10 3 = true :=
  (c6_wait_for_http_contract _ 10 3 (by decide)).mpr ⟨2, by decide, by decide⟩

/-- Claim C8: the dispatcher's exit-code mapping, clause by clause, plus
totality of the mapping over every outcome that reaches the handler. -/
theorem c8_main_exit_codes :
    mainExitCode RunOutcome.completed = some 0 ∧
    mainExitCode (RunOutcome.raised ExcClass.keyboardInterrupt) = some 0 ∧
    mainExitCode (RunOutcome.raised ExcClass.userCancelled) = some 0 ∧
    mainExitCode (RunOutcome.raised ExcClass.inputError) = some 2 ∧
    mainExitCode (RunOutcome.raised ExcClass.infraError) = some 3 ∧
    mainExitCode (RunOutcome.raised ExcClass.wardrobeError) = some 1 ∧
    mainExitCode (RunOutcome.raised ExcClass.otherException) = some 1 ∧
    ∀ o : RunOutcome, (mainExitCode o).isSome = true := by
  refine ⟨rfl, rfl, rfl, rfl, rfl, rfl, rfl, ?_⟩
  intro o
  cases o with
  | completed => rfl
  | raised e => cases e <;> rfl

/-- Claim C2: the plan artifact is consumed exactly once.  A run of
`deploy_terraform` that returns outputs leaves the plan file deleted; a
failed apply (non-zero engine exit) leaves the plan file exactly as it was
and raises an infrastructure-class error whose message carries the engine's
diagnostic text (stderr, else stdout), the trace showing the apply as the
only action performed — no deletion and no rollback. -/
theorem c2_deploy_plan_artifact :
    ∀ (planExists : Bool) (applyRes outputRes : RunRes) (parse : Str → Option TfOutputs),
      (∀ outs, (deploy_terraform planExists applyRes outputRes parse).2.2 = Except.ok outs →
        (deploy_terraform planExists applyRes outputRes parse).2.1 = false) ∧
      (∀ r, applyRes = RunRes.ran r → r.exitCode ≠ 0 →
        deploy_terraform planExists applyRes outputRes parse =
          ([DeployAction.runApply], planExists,
            Except.error (Err.infraError
              (str "Terraform deployment failed: " ++ diagText r (str "CalledProcessError"))))) := by
  intro planExists applyRes outputRes parse
  constructor
  · intro outs h
    cases applyRes with
    | notFound => simp [deploy_terraform] at h
    | ran ar =>
      by_cases hz : ar.exitCode = 0
      · cases outputRes with
        | notFound => simp [deploy_terraform, hz]
        | ran outr =>
          by_cases hoz : outr.exitCode = 0
          · cases hp : parse outr.stdout with
            | none => simp [deploy_terraform, hz, hoz, hp]
            | some outs2 => simp [deploy_terraform, hz, hoz, hp]
          · simp [deploy_terraform, hz, hoz]
      · simp [deploy_terraform, hz] at h
  · intro r har hz
    subst har
    simp only [deploy_terraform, if_pos hz]

/-- Witness for C2: a failed apply with diagnostic on stderr leaves the plan
file in place and surfaces the diagnostic in the infrastructure error. -/
theorem c2_witness :
    deploy_terraform true (RunRes.ran ⟨1, str "", str "boom"⟩) RunRes.notFound (fun _ => none) =
      ([DeployAction.runApply], true,
        Except.error (Err.infraError (str "Terraform deployment failed: boom"))) := by
  have h := (c2_deploy_plan_artifact true (RunRes.ran ⟨1, str "", str "boom"⟩)
    RunRes.notFound (fun _ => none)).2 ⟨1, str "", str "boom"⟩ rfl (by decide)
  rw [h]
  decide

/-- Claim C5: a successful `generate_terraform_config` leaves the workspace
holding exactly the two files rendered from the current request, independent
of every prior workspace state. -/
theorem c5_generate_fresh_workspace :
    ∀ (env : RenderEnv) (ws : Workspace) (p : Str),
      (generate_terraform_config env ws).2 = Except.ok p →
      ∃ mainT ciT ip key,
        env.mainTemplate = some mainT ∧ env.cloudInitTemplate = some ciT ∧
        env.userIp = some ip ∧ env.sshKeyContent = some key ∧
        (generate_terraform_config env ws).1 =
          some [(str "main.tf", renderTemplate mainT (mkSubs env ip key)),
                (str "digitalocean-cloud-init.yaml", renderTemplate ciT (mkSubs env ip key))] ∧
        (∀ ws₂ : Workspace, (generate_terraform_config env ws₂).1 =
          (generate_terraform_config env ws).1) := by
  intro env ws p hok
  cases hmt : env.mainTemplate with
  | none => simp [generate_terraform_config, hmt] at hok
  | some mainT =>
    cases hip : env.userIp with
    | none => simp [generate_terraform_config, hmt, hip] at hok
    | some ip =>
      cases hkey : env.sshKeyContent with
      | none => simp [generate_terraform_config, hmt, hip, hkey] at hok
      | some key =>
        cases hci : env.cloudInitTemplate with
        | none => simp [generate_terraform_config, hmt, hip, hkey, hci] at hok
        | some ciT =>
          refine ⟨mainT, ciT, ip, key, rfl, rfl, rfl, rfl, ?_, ?_⟩
          · simp [generate_terraform_config, hmt, hip, hkey, hci]
          · intro ws₂
            simp [generate_terraform_config, hmt, hip, hkey, hci]

/-- A concrete environment for the C5 witness. -/
def demoEnv : RenderEnv :=
  { mainTemplate := some (str "region = " ++ tokOf (str "REGION")),
    cloudInitTemplate := some (str "password: " ++ tokOf (str "ADMIN_PASSWORD")),
    userIp := some (str "203.0.113.7"),
    sshKeyContent := some (str "ssh-ed25519 AAAA"),
    region := str "lon1",
    nowIso := str "2025-09-01T00:00:00Z",
    nowHuman := str "2025-09-01 00:00:00 UTC",
    vpnName := str "wardrobe-vpn-lon1",
    adminPassword := str "pw1234567890" }

/-- Witness for C5: the final workspace is the same whether the previous one
held a stale file or did not exist at all. -/
theorem c5_witness :
    (generate_terraform_config demoEnv (some [(str "stale.tf", str "old")])).1 =
      (generate_terraform_config demoEnv none).1 := by
  obtain ⟨mt, ct, ip, key, _, _, _, _, _, hall⟩ :=
    c5_generate_fresh_workspace demoEnv (some [(str "stale.tf", str "old")])
      (str "tf_output") (by decide)
  exact (hall none).symm

/-- Discriminator: is this result a raised `InfraError`? -/
def isInfraRes {α : Type} : Except Err α → Bool
  | Except.error (Err.infraError _) => true
  | _ => false

/-- A create response with status 200/201/202 and a non-empty fingerprint in
the body yields that server fingerprint. -/
theorem createKeyBlock_2xx (localFp nf : Str) (s : Nat) (btext : Str)
    (hs : s = 200 ∨ s = 201 ∨ s = 202) (hnf : nf ≠ []) :
    createKeyBlock localFp (CreateResult.resp s (some nf) btext) = Except.ok nf := by
  simp only [createKeyBlock]
  rw [if_pos hs, if_neg hnf]

/-- A 422 (duplicate) create response yields the locally computed
fingerprint without raising. -/
theorem createKeyBlock_422 (localFp : Str) (fpo : Option Str) (btext : Str) :
    createKeyBlock localFp (CreateResult.resp 422 fpo btext) = Except.ok localFp := by
  simp only [createKeyBlock]
  rw [if_neg (by decide)]
  simp

/-- Any other create status raises an infrastructure-class error. -/
theorem createKeyBlock_other (localFp : Str) (s : Nat) (fpo : Option Str) (btext : Str)
    (hs : ¬(s = 200 ∨ s = 201 ∨ s = 202)) (h422 : s ≠ 422) :
    ∃ m, createKeyBlock localFp (CreateResult.resp s fpo btext) =
      Except.error (Err.infraError m) := by
  have h : createKeyBlock localFp (CreateResult.resp s fpo btext) =
      Except.error (Err.infraError
        (str "DigitalOcean create key request failed: DigitalOcean create key failed: HTTP " ++
          (Nat.repr s).toList ++ str " - " ++ btext.take 200)) := by
    simp only [createKeyBlock]
    rw [if_neg hs, if_neg h422]
  exact ⟨_, h⟩

/-- Claim C1 (amended): the get-or-create contract of `set_do_ssh_key`.  A
GET 200 short-circuits to the local fingerprint with no create request; a
GET 404 followed by a create status of 200, 201 or 202 with a non-empty
fingerprint in the body returns the server fingerprint; a create 422
returns the local fingerprint without raising; every other GET or create
status raises an infrastructure-class error. -/
theorem c1_reconcile_contract :
    ∀ (content fp : Str) (g : GetResult) (c : CreateResult),
      get_md5_fingerprint content = Except.ok fp →
      ((∀ text, g = GetResult.resp 200 text →
          set_do_ssh_key content g c = (false, Except.ok fp)) ∧
       (∀ text s fpo btext nf, g = GetResult.resp 404 text →
          c = CreateResult.resp s fpo btext → (s = 200 ∨ s = 201 ∨ s = 202) →
          fpo = some nf → nf ≠ [] →
          set_do_ssh_key content g c = (true, Except.ok nf)) ∧
       (∀ text fpo btext, g = GetResult.resp 404 text →
          c = CreateResult.resp 422 fpo btext →
          set_do_ssh_key content g c = (true, Except.ok fp)) ∧
       (∀ text s, g = GetResult.resp s text → s ≠ 200 → s ≠ 404 →
          ∃ m, set_do_ssh_key content g c =
            (false, Except.error (Err.infraError m))) ∧
       (∀ text s fpo btext, g = GetResult.resp 404 text →
          c = CreateResult.resp s fpo btext →
          ¬(s = 200 ∨ s = 201 ∨ s = 202) → s ≠ 422 →
          ∃ m, set_do_ssh_key content g c =
            (true, Except.error (Err.infraError m)))) := by
  intro content fp g c hfp
  have hbase : ∀ (status : Nat) (text : Str),
      set_do_ssh_key content (GetResult.resp status text) c =
        (if status = 200 then (false, Except.ok fp)
         else if ¬(status = 200 ∨ status = 404) then
           (false, Except.error (Err.infraError
             (str "DigitalOcean GET key failed: HTTP " ++ (Nat.repr status).toList ++
               str " - " ++ text.take 200)))
         else (true, createKeyBlock fp c)) := by
    intro status text
    unfold set_do_ssh_key
    rw [hfp]
  refine ⟨?_, ?_, ?_, ?_, ?_⟩
  · intro text hg
    subst hg
    rw [hbase 200 text, if_pos rfl]
  · intro text s fpo btext nf hg hc hs hfpo hnf
    subst hg; subst hc; subst hfpo
    rw [hbase 404 text, if_neg (by decide), if_neg (by decide)]
    rw [createKeyBlock_2xx fp nf s btext hs hnf]
  · intro text fpo btext hg hc
    subst hg; subst hc
    rw [hbase 404 text, if_neg (by decide), if_neg (by decide)]
    rw [createKeyBlock_422 fp fpo btext]
  · intro text s hg hs200 hs404
    subst hg
    have h : set_do_ssh_key content (GetResult.resp s text) c =
        (false, Except.error (Err.infraError
          (str "DigitalOcean GET key failed: HTTP " ++ (Nat.repr s).toList ++
            str " - " ++ text.take 200))) := by
      rw [hbase s text, if_neg hs200, if_pos (fun h => h.elim hs200 hs404)]
    exact ⟨_, h⟩
  · intro text s fpo btext hg hc hs h422
    subst hg; subst hc
    obtain ⟨m, hm⟩ := createKeyBlock_other fp s fpo btext hs h422
    refine ⟨m, ?_⟩
    rw [hbase 404 text, if_neg (by decide), if_neg (by decide), hm]

/-- Counterexample to C1 as stated: a create status of 226 is 2xx, yet the
reconciler raises an infrastructure error instead of returning the server
fingerprint `"aa:bb"` from the body. -/
theorem c1_claim_counterexample :
    isInfraRes (set_do_ssh_key (str "ssh-rsa AAAA")
        (GetResult.resp 404 []) (CreateResult.resp 226 (some (str "aa:bb")) [])).2 = true ∧
    (set_do_ssh_key (str "ssh-rsa AAAA") (GetResult.resp 404 [])
        (CreateResult.resp 226 (some (str "aa:bb")) [])).2 ≠ Except.ok (str "aa:bb") := by
  decide

/-- Witness for C1: the spec's scenario — GET 404 then create 201 with a
fingerprint in the body — returns the server-assigned fingerprint. -/
theorem c1_witness :
    set_do_ssh_key (str "ssh-rsa AAAA") (GetResult.resp 404 [])
      (CreateResult.resp 201 (some (str "aa:bb")) []) = (true, Except.ok (str "aa:bb")) :=
  ((c1_reconcile_contract (str "ssh-rsa AAAA")
      (str "69:3e:9a:f8:4d:3d:fc:c7:1e:64:0e:00:5b:dc:5e:2e")
      (GetResult.resp 404 []) (CreateResult.resp 201 (some (str "aa:bb")) [])
      (by decide)).2.1) [] 201 (some (str "aa:bb")) [] (str "aa:bb")
    rfl rfl (Or.inr (Or.inl rfl)) rfl (by decide)

/-- The second entry of a list pins down its two-element head shape. -/
theorem get1_shape : ∀ (l : List Str) (f : Str), l[1]? = some f → ∃ a r, l = a :: f :: r := by
  intro l f h
  cases l with
  | nil => simp at h
  | cons a t =>
    cases t with
    | nil => simp at h
    | cons b r =>
      simp at h
      exact ⟨a, r, by rw [h]⟩

/-- Claim C10: the fingerprint depends only on the second whitespace-
separated field — two contents with the same second field produce identical
results, whatever their key-type marker, comment, or surrounding whitespace. -/
theorem c10_fingerprint_noninterference :
    ∀ (c1 c2 f : Str),
      (splitWs (stripWs c1))[1]? = some f →
      (splitWs (stripWs c2))[1]? = some f →
      get_md5_fingerprint c1 = get_md5_fingerprint c2 := by
  intro c1 c2 f h1 h2
  obtain ⟨a1, r1, e1⟩ := get1_shape _ _ h1
  obtain ⟨a2, r2, e2⟩ := get1_shape _ _ h2
  unfold get_md5_fingerprint
  rw [e1, e2]

/-- Witness for C10: an `ssh-rsa` key with a comment and an `ssh-ed25519` key
with extra whitespace but the same payload share a fingerprint. -/
theorem c10_witness :
    get_md5_fingerprint (str "ssh-rsa AAAA user@host") =
      get_md5_fingerprint (str "  ssh-ed25519   AAAA  ") :=
  c10_fingerprint_noninterference _ _ (str "AAAA") (by decide) (by decide)

/-- The digest always has sixteen bytes. -/
theorem md5_length (msg : List Nat) : (md5 msg).length = 16 := by
  simp [md5, leBytes4]

/-- Every digest byte is below 256. -/
theorem md5_lt (msg : List Nat) : ∀ b ∈ md5 msg, b < 256 := by
  intro b hb
  simp [md5, leBytes4] at hb
  rcases hb with h | h | h | h | h | h | h | h | h | h | h | h | h | h | h | h <;>
    rw [h] <;> exact Nat.mod_lt _ (by norm_num)

/-- Hex digits of values below sixteen come from the lowercase alphabet. -/
theorem hexDigit_mem : ∀ n, n < 16 → List.elem (hexDigit n) (str "0123456789abcdef") = true := by
  decide

/-- Both characters of a byte's hex rendering are lowercase hex. -/
theorem byteHex_chars (b : Nat) (hb : b < 256) :
    ∀ c ∈ byteHex b, List.elem c (str "0123456789abcdef") = true := by
  intro c hc
  simp [byteHex] at hc
  rcases hc with h | h <;> rw [h]
  · exact hexDigit_mem _ ((Nat.div_lt_iff_lt_mul (by norm_num)).mpr (by omega))
  · exact hexDigit_mem _ (Nat.mod_lt _ (by norm_num))

/-- Slicing two at a time recovers the blocks of a flattened list of
two-character blocks. -/
theorem slices2_flatten : ∀ (blocks : List Str), (∀ b ∈ blocks, b.length = 2) →
    slices2 blocks.flatten = blocks := by
  intro blocks
  induction blocks with
  | nil => intro _; rfl
  | cons b t ih =>
    intro h
    have hb : b.length = 2 := h b (List.mem_cons_self b t)
    cases b with
    | nil => simp at hb
    | cons x b' =>
      cases b' with
      | nil => simp at hb
      | cons y b'' =>
        cases b'' with
        | cons z rest => simp at hb
        | nil =>
          have hfl : ([x, y] :: t).flatten = x :: y :: t.flatten := rfl
          rw [hfl]
          show [x, y] :: slices2 t.flatten = [x, y] :: t
          rw [ih (fun b hbmem => h b (List.mem_cons_of_mem _ hbmem))]

/-- Claim C7: on any content whose second whitespace field is valid base64,
`get_md5_fingerprint` is deterministic and returns exactly sixteen
colon-separated two-character lowercase hex parts — the MD5 digest of the
base64-decoded payload, one byte per part. -/
theorem c7_fingerprint_format :
    ∀ (content fp : Str), get_md5_fingerprint content = Except.ok fp →
      (∀ content2, content2 = content → get_md5_fingerprint content2 = Except.ok fp) ∧
      ∃ (payload : Str) (keyBytes : List Nat) (parts : List Str),
        (splitWs (stripWs content))[1]? = some payload ∧
        b64decode payload = some keyBytes ∧
        parts = (md5 keyBytes).map byteHex ∧
        fp = List.intercalate (str ":") parts ∧
        parts.length = 16 ∧
        ∀ p ∈ parts, p.length = 2 ∧
          ∀ c ∈ p, List.elem c (str "0123456789abcdef") = true := by
  intro content fp hok
  refine ⟨fun c2 h2 => by rw [h2]; exact hok, ?_⟩
  cases hsp : splitWs (stripWs content) with
  | nil =>
    have hcomp : get_md5_fingerprint content =
        Except.error (Err.inputError (str "failed to read/parse ssh key")) := by
      unfold get_md5_fingerprint
      rw [hsp]
    rw [hcomp] at hok
    exact Except.noConfusion hok
  | cons a t =>
    cases t with
    | nil =>
      have hcomp : get_md5_fingerprint content =
          Except.error (Err.inputError (str "failed to read/parse ssh key")) := by
        unfold get_md5_fingerprint
        rw [hsp]
      rw [hcomp] at hok
      exact Except.noConfusion hok
    | cons f1 r =>
      have hcomp : get_md5_fingerprint content =
          (match b64decode f1 with
           | some keyBytes => Except.ok (fingerprintOfBytes keyBytes)
           | none => Except.error (Err.inputError (str "failed to read/parse ssh key"))) := by
        unfold get_md5_fingerprint
        rw [hsp]
      rw [hcomp] at hok
      cases hb : b64decode f1 with
      | none =>
        rw [hb] at hok
        exact Except.noConfusion hok
      | some keyBytes =>
        rw [hb] at hok
        have hfp : fp = fingerprintOfBytes keyBytes := (Except.ok.inj hok).symm
        refine ⟨f1, keyBytes, (md5 keyBytes).map byteHex, by simp, hb, rfl, ?_, ?_, ?_⟩
        · rw [hfp]
          unfold fingerprintOfBytes md5HexDigest
          rw [slices2_flatten]
          intro b hbmem
          simp at hbmem
          obtain ⟨x, _, hx⟩ := hbmem
          rw [← hx]
          rfl
        · simp [md5_length]
        · intro p hp
          simp at hp
          obtain ⟨x, hxmem, hpx⟩ := hp
          refine ⟨by rw [← hpx]; rfl, ?_⟩
          rw [← hpx]
          exact byteHex_chars x (md5_lt keyBytes x hxmem)

/-- Witness for C7: the fingerprint of a concrete key splits into its sixteen
hex pairs. -/
theorem c7_witness :
    get_md5_fingerprint (str "ssh-rsa AAAA comment") =
      Except.ok (List.intercalate (str ":") ((md5 [0, 0, 0]).map byteHex)) := by
  obtain ⟨_, ⟨payload, keyBytes, parts, hpay, hdec, hparts, hfp, _, _⟩⟩ :=
    c7_fingerprint_format (str "ssh-rsa AAAA comment")
      (str "69:3e:9a:f8:4d:3d:fc:c7:1e:64:0e:00:5b:dc:5e:2e") (by decide)
  have hb : keyBytes = [0, 0, 0] := by
    have : payload = str "AAAA" := by
      rw [show (splitWs (stripWs (str "ssh-rsa AAAA comment")))[1]? = some (str "AAAA")
        from by decide] at hpay
      exact (Option.some.inj hpay).symm
    rw [this] at hdec
    rw [show b64decode (str "AAAA") = some [0, 0, 0] from by decide] at hdec
    exact (Option.some.inj hdec).symm
  rw [show get_md5_fingerprint (str "ssh-rsa AAAA comment") =
    Except.ok (str "69:3e:9a:f8:4d:3d:fc:c7:1e:64:0e:00:5b:dc:5e:2e") from by decide]
  rw [hfp, hparts, hb]

/-!  Claim C4 needs structure on templates: a template is viewed as a list of
segments — literal chunks and placeholder tokens.  `segsChars` recovers the
raw template text the renderer actually operates on, so the theorems below
are about `renderTemplate` on genuine character strings. -/

/-- A template segment: a literal chunk or a placeholder token. -/
inductive Seg where
  | lit (s : Str)
  | tok (name : Str)
deriving DecidableEq, Repr

/-- The characters a segment contributes to the template text. -/
def segChars : Seg → Str
  | Seg.lit s => s
  | Seg.tok n => tokOf n

/-- The template text of a segment list. -/
def segsChars (segs : List Seg) : Str := (segs.map segChars).flatten

/-- No dollar sign anywhere in the string. -/
def dollarFree (s : Str) : Bool := s.all (fun c => c != '$')

/-- A well-formed placeholder name: free of dollar signs and closing braces. -/
def nameOk (n : Str) : Bool := n.all (fun c => c != '$' && c != '}')

/-- Well-formedness of one segment: literals are dollar-free, token names are
well-formed. -/
def segOk : Seg → Bool
  | Seg.lit s => dollarFree s
  | Seg.tok n => nameOk n

/-- Well-formedness of a segment list. -/
def segsOk (segs : List Seg) : Bool := segs.all segOk

/-- All seven substitution values are dollar-free. -/
def subsOk (s : Subs) : Bool :=
  dollarFree s.region && dollarFree s.timestamp && dollarFree s.createdAt &&
    dollarFree s.deploymentName && dollarFree s.sshPublicKey && dollarFree s.yourIp &&
    dollarFree s.adminPassword

/-- Replace a token segment for name `m` by a literal holding `v`. -/
def replaceTokSeg (m v : Str) : Seg → Seg
  | Seg.lit s => Seg.lit s
  | Seg.tok n => if n = m then Seg.lit v else Seg.tok n

/-- Apply all seven substitutions to one segment, in dict order. -/
def resolveSeg (subs : Subs) (sg : Seg) : Seg :=
  (substPairs subs).foldl (fun x pv => replaceTokSeg pv.1 pv.2 x) sg

/-- The replacement scanner at its canonical fuel. -/
def replaceRun (pat val s : Str) : Str := replaceFuel pat val s.length s

/-- The scanner's result does not depend on the fuel once the fuel covers the
string length. -/
theorem replaceFuel_stable (pat val : Str) :
    ∀ (f₁ : Nat) (s : Str) (f₂ : Nat), s.length ≤ f₁ → s.length ≤ f₂ →
      replaceFuel pat val f₁ s = replaceFuel pat val f₂ s := by
  intro f₁
  induction f₁ with
  | zero =>
    intro s f₂ h1 _
    have hnil : s = [] := List.eq_nil_of_length_eq_zero (Nat.le_zero.mp h1)
    subst hnil
    cases f₂ <;> rfl
  | succ n ih =>
    intro s f₂ h1 h2
    cases s with
    | nil => cases f₂ <;> rfl
    | cons c rest =>
      cases f₂ with
      | zero => simp at h2
      | succ m =>
        simp only [replaceFuel]
        by_cases hp : pat.isPrefixOf (c :: rest) = true
        · rw [if_pos hp, if_pos hp]
          congr 1
          apply ih
          · calc (List.drop (pat.length - 1) rest).length
                ≤ rest.length := by rw [List.length_drop]; exact Nat.sub_le _ _
              _ ≤ n := Nat.le_of_succ_le_succ (by simpa using h1)
          · calc (List.drop (pat.length - 1) rest).length
                ≤ rest.length := by rw [List.length_drop]; exact Nat.sub_le _ _
              _ ≤ m := Nat.le_of_succ_le_succ (by simpa using h2)
        · rw [if_neg hp, if_neg hp]
          congr 1
          apply ih
          · exact Nat.le_of_succ_le_succ (by simpa using h1)
          · exact Nat.le_of_succ_le_succ (by simpa using h2)

/-- Scanner equation: empty string. -/
theorem replaceRun_nil (pat val : Str) : replaceRun pat val [] = [] := rfl

/-- Scanner equation: no match at the head. -/
theorem replaceRun_cons_nomatch (pat val : Str) (c : Char) (s : Str)
    (h : pat.isPrefixOf (c :: s) = false) :
    replaceRun pat val (c :: s) = c :: replaceRun pat val s := by
  show replaceFuel pat val (s.length + 1) (c :: s) = _
  simp only [replaceFuel]
  rw [if_neg (by simp [h])]
  rfl

/-- Scanner equation: match at the head. -/
theorem replaceRun_cons_match (pat val : Str) (c : Char) (s : Str)
    (h : pat.isPrefixOf (c :: s) = true) :
    replaceRun pat val (c :: s) =
      val ++ replaceRun pat val (List.drop (pat.length - 1) s) := by
  show replaceFuel pat val (s.length + 1) (c :: s) = _
  simp only [replaceFuel]
  rw [if_pos h]
  congr 1
  apply replaceFuel_stable
  · rw [List.length_drop]; exact Nat.sub_le _ _
  · exact Nat.le_refl _

/-- The scanner walks cleanly through a region with no match at any of its
positions. -/
theorem replaceRun_append_clean (pat val : Str) :
    ∀ (seg rest : Str),
      (∀ k, k < seg.length → pat.isPrefixOf (List.drop k (seg ++ rest)) = false) →
      replaceRun pat val (seg ++ rest) = seg ++ replaceRun pat val rest := by
  intro seg
  induction seg with
  | nil => intro rest _; simp
  | cons c s ih =>
    intro rest h
    have h0 : pat.isPrefixOf (c :: (s ++ rest)) = false := by
      have := h 0 (Nat.succ_pos _)
      simpa using this
    have hside : ∀ k, k < s.length → pat.isPrefixOf (List.drop k (s ++ rest)) = false := by
      intro k hk
      have := h (k + 1) (Nat.succ_lt_succ hk)
      simpa using this
    rw [List.cons_append, replaceRun_cons_nomatch pat val c (s ++ rest) h0, ih rest hside]
    rfl

/-- Explicit unfolding equations for `List.isPrefixOf`. -/
theorem isPrefixOf_cons_cons (a b : Char) (as bs : Str) :
    (a :: as).isPrefixOf (b :: bs) = (a == b && as.isPrefixOf bs) := rfl

/-- A list opens every extension of itself. -/
theorem isPrefixOf_self_append : ∀ (l r : Str), l.isPrefixOf (l ++ r) = true := by
  intro l r
  induction l with
  | nil => cases r <;> rfl
  | cons c t ih => rw [List.cons_append, isPrefixOf_cons_cons, beq_self_eq_true, Bool.true_and, ih]

/-- Distinct brace-free names never cross-match behind the `${` opener: the
closing brace of the shorter token collides with a name character of the
longer one. -/
theorem name_mismatch : ∀ (T U rest : Str), T ≠ U → (∀ c ∈ T, c ≠ '}') →
    (∀ c ∈ U, c ≠ '}') → (T ++ ['}']).isPrefixOf (U ++ '}' :: rest) = false := by
  intro T
  induction T with
  | nil =>
    intro U rest hne _ hU
    cases U with
    | nil => exact absurd rfl hne
    | cons u U' =>
      have hu : u ≠ '}' := hU u (List.mem_cons_self _ _)
      show (['}'] : Str).isPrefixOf (u :: (U' ++ '}' :: rest)) = false
      rw [isPrefixOf_cons_cons, beq_eq_false_iff_ne.mpr (Ne.symm hu), Bool.false_and]
  | cons t T' ih =>
    intro U rest hne hT hU
    cases U with
    | nil =>
      have ht : t ≠ '}' := hT t (List.mem_cons_self _ _)
      show ((t :: T') ++ ['}']).isPrefixOf ('}' :: rest) = false
      rw [List.cons_append, isPrefixOf_cons_cons, beq_eq_false_iff_ne.mpr ht, Bool.false_and]
    | cons u U' =>
      by_cases htu : t = u
      · subst htu
        have hne' : T' ≠ U' := fun h => hne (by rw [h])
        show ((t :: T') ++ ['}']).isPrefixOf (t :: (U' ++ '}' :: rest)) = false
        rw [List.cons_append, isPrefixOf_cons_cons, beq_self_eq_true, Bool.true_and]
        exact ih U' rest hne' (fun c hc => hT c (List.mem_cons_of_mem _ hc))
          (fun c hc => hU c (List.mem_cons_of_mem _ hc))
      · show ((t :: T') ++ ['}']).isPrefixOf (u :: (U' ++ '}' :: rest)) = false
        rw [List.cons_append, isPrefixOf_cons_cons, beq_eq_false_iff_ne.mpr htu, Bool.false_and]

/-- No token can start inside a dollar-free region. -/
theorem noDollar_scan (T : Str) :
    ∀ (s rest : Str), (∀ c ∈ s, c ≠ '$') →
      ∀ k, k < s.length → (tokOf T).isPrefixOf (List.drop k (s ++ rest)) = false := by
  intro s
  induction s with
  | nil => intro rest _ k hk; simp at hk
  | cons c s' ih =>
    intro rest h k hk
    cases k with
    | zero =>
      have hc : c ≠ '$' := h c (List.mem_cons_self _ _)
      show (tokOf T).isPrefixOf (c :: (s' ++ rest)) = false
      rw [show tokOf T = '$' :: '{' :: (T ++ ['}']) from rfl, isPrefixOf_cons_cons,
        beq_eq_false_iff_ne.mpr (Ne.symm hc), Bool.false_and]
    | succ k' =>
      show (tokOf T).isPrefixOf (List.drop (k' + 1) ((c :: s') ++ rest)) = false
      rw [List.cons_append, List.drop_succ_cons]
      exact ih rest (fun d hd => h d (List.mem_cons_of_mem _ hd)) k' (Nat.lt_of_succ_lt_succ hk)

/-- A token for `T` never matches at position zero of a different token. -/
theorem tok_no_prefix (T U rest : Str) (hne : T ≠ U)
    (hT : ∀ c ∈ T, c ≠ '}') (hU : ∀ c ∈ U, c ≠ '}') :
    (tokOf T).isPrefixOf (tokOf U ++ rest) = false := by
  have hform : tokOf U ++ rest = '$' :: '{' :: (U ++ '}' :: rest) := by
    simp [tokOf]
  rw [hform, show tokOf T = '$' :: '{' :: (T ++ ['}']) from rfl,
    isPrefixOf_cons_cons, beq_self_eq_true, Bool.true_and,
    isPrefixOf_cons_cons, beq_self_eq_true, Bool.true_and]
  exact name_mismatch T U rest hne hT hU

/-- No token for `T` matches at any position inside a well-formed segment
that is not itself the token for `T`. -/
theorem seg_scan (T : Str) (hTname : ∀ c ∈ T, c ≠ '}') (sg : Seg)
    (hsg : segOk sg = true) (hne : ∀ n, sg = Seg.tok n → n ≠ T) (rest : Str) :
    ∀ k, k < (segChars sg).length →
      (tokOf T).isPrefixOf (List.drop k (segChars sg ++ rest)) = false := by
  cases sg with
  | lit s =>
    intro k hk
    have hs : ∀ c ∈ s, c ≠ '$' := by
      simp [segOk, dollarFree, List.all_eq_true] at hsg
      exact hsg
    exact noDollar_scan T s rest hs k hk
  | tok U =>
    have hUname : ∀ c ∈ U, ¬c = '$' ∧ ¬c = '}' := by
      simp [segOk, nameOk, List.all_eq_true] at hsg
      exact hsg
    intro k hk
    cases k with
    | zero =>
      show (tokOf T).isPrefixOf (List.drop 0 (tokOf U ++ rest)) = false
      rw [List.drop_zero]
      exact tok_no_prefix T U rest (Ne.symm (hne U rfl)) hTname (fun c hc => (hUname c hc).2)
    | succ k' =>
      have hform : (tokOf U : Str) ++ rest = '$' :: (('{' :: (U ++ ['}'])) ++ rest) := by
        simp [tokOf]
      show (tokOf T).isPrefixOf (List.drop (k' + 1) (tokOf U ++ rest)) = false
      rw [hform, List.drop_succ_cons]
      apply noDollar_scan T ('{' :: (U ++ ['}'])) rest ?_ k' ?_
      · intro c hc
        simp at hc
        rcases hc with h | h | h
        · rw [h]; decide
        · exact (hUname c h).1
        · rw [h]; decide
      · have hlen : (tokOf U).length = ('{' :: (U ++ ['}'])).length + 1 := by
          simp [tokOf]
        rw [show segChars (Seg.tok U) = tokOf U from rfl, hlen] at hk
        omega

/-- The matched step: at its own token the scanner emits the value and
resumes right past the token. -/
theorem replaceRun_tok_self (T val rest : Str) :
    replaceRun (tokOf T) val (tokOf T ++ rest) = val ++ replaceRun (tokOf T) val rest := by
  have hform : (tokOf T : Str) ++ rest = '$' :: (('{' :: (T ++ ['}'])) ++ rest) := by
    simp [tokOf]
  rw [hform, replaceRun_cons_match _ _ _ _ ?_]
  · congr 1
    have hlen : (tokOf T).length - 1 = ('{' :: (T ++ ['}'])).length := by
      simp [tokOf]
    rw [hlen, List.drop_left]
  · rw [← hform]
    exact isPrefixOf_self_append _ _

/-- One full pass of the scanner over a segment-built template replaces
exactly the matching token segments. -/
theorem replaceRun_segsChars (T val : Str) (hTname : ∀ c ∈ T, c ≠ '}') :
    ∀ segs, segsOk segs = true →
      replaceRun (tokOf T) val (segsChars segs) =
        segsChars (segs.map (replaceTokSeg T val)) := by
  intro segs
  induction segs with
  | nil => intro _; rfl
  | cons sg rest ih =>
    intro hok
    have hall := List.all_eq_true.mp hok
    have hsg : segOk sg = true := hall sg (List.mem_cons_self _ _)
    have hrest : segsOk rest = true :=
      List.all_eq_true.mpr (fun x hx => hall x (List.mem_cons_of_mem _ hx))
    have hchars : segsChars (sg :: rest) = segChars sg ++ segsChars rest := by
      simp [segsChars]
    rw [hchars]
    by_cases htok : sg = Seg.tok T
    · subst htok
      rw [show segChars (Seg.tok T) = tokOf T from rfl, replaceRun_tok_self, ih hrest]
      have hrepl : replaceTokSeg T val (Seg.tok T) = Seg.lit val := by
        simp [replaceTokSeg]
      simp only [List.map_cons, hrepl, segsChars, List.flatten_cons]
      rfl
    · rw [replaceRun_append_clean (tokOf T) val (segChars sg) (segsChars rest) ?_]
      · rw [ih hrest]
        have hkeep : replaceTokSeg T val sg = sg := by
          cases sg with
          | lit s => rfl
          | tok n =>
            have hnT : n ≠ T := fun h => htok (by rw [h])
            simp [replaceTokSeg, hnT]
        simp [segsChars, hkeep]
      · intro k hk
        apply seg_scan T hTname sg hsg ?_ (segsChars rest) k hk
        intro n hn h
        exact htok (by rw [hn, h])

/-- Replacing one token keeps a segment list well-formed when the inserted
value is dollar-free. -/
theorem segsOk_map_replace (T val : Str) (hval : dollarFree val = true) :
    ∀ segs, segsOk segs = true → segsOk (segs.map (replaceTokSeg T val)) = true := by
  intro segs h
  apply List.all_eq_true.mpr
  intro sg' hsg'
  simp at hsg'
  obtain ⟨sg, hmem, hrepl⟩ := hsg'
  have hsg : segOk sg = true := List.all_eq_true.mp h sg hmem
  cases sg with
  | lit s => rw [← hrepl]; exact hsg
  | tok n =>
    by_cases hn : n = T
    · rw [← hrepl]; simp [replaceTokSeg, hn, segOk, hval]
    · rw [← hrepl]; simp [replaceTokSeg, hn]; exact hsg

/-- Folding per-pair maps over the list equals mapping the per-segment fold. -/
theorem foldl_map_segs :
    ∀ (pairs : List (Str × Str)) (segs : List Seg),
      pairs.foldl (fun sg pv => sg.map (replaceTokSeg pv.1 pv.2)) segs =
        segs.map (fun x => pairs.foldl (fun y pv => replaceTokSeg pv.1 pv.2 y) x) := by
  intro pairs
  induction pairs with
  | nil => intro segs; simp
  | cons p ps ih =>
    intro segs
    rw [List.foldl_cons, ih, List.map_map]
    rfl

/-- For a non-empty pattern `pyReplace` is the canonical scanner. -/
theorem pyReplace_eq_replaceRun (s pat val : Str) (h : pat ≠ []) :
    pyReplace s pat val = replaceRun pat val s := by
  simp [pyReplace, replaceRun, h]

/-- Tokens are never empty. -/
theorem tokOf_ne_nil (n : Str) : tokOf n ≠ [] := by simp [tokOf]

/-- The rendering fold, segment by segment: rendering the template text of a
well-formed segment list is the template text of the per-segment resolution. -/
theorem renderTemplate_segs_aux :
    ∀ (pairs : List (Str × Str)) (segs : List Seg),
      (∀ pv ∈ pairs, (∀ c ∈ pv.1, c ≠ '}') ∧ dollarFree pv.2 = true) →
      segsOk segs = true →
      pairs.foldl (fun acc pv => pyReplace acc (tokOf pv.1) pv.2) (segsChars segs) =
        segsChars (pairs.foldl (fun sg pv => sg.map (replaceTokSeg pv.1 pv.2)) segs) := by
  intro pairs
  induction pairs with
  | nil => intro segs _ _; rfl
  | cons p ps ih =>
    intro segs hp hok
    rw [List.foldl_cons, List.foldl_cons,
      pyReplace_eq_replaceRun _ _ _ (tokOf_ne_nil p.1),
      replaceRun_segsChars p.1 p.2 (hp p (List.mem_cons_self _ _)).1 segs hok]
    exact ih (segs.map (replaceTokSeg p.1 p.2))
      (fun pv hpv => hp pv (List.mem_cons_of_mem _ hpv))
      (segsOk_map_replace p.1 p.2 (hp p (List.mem_cons_self _ _)).2 segs hok)

/-- The seven pairs have brace-free names and (under `subsOk`) dollar-free
values. -/
theorem substPairs_names_ok (subs : Subs) (hsubs : subsOk subs = true) :
    ∀ pv ∈ substPairs subs, (∀ c ∈ pv.1, c ≠ '}') ∧ dollarFree pv.2 = true := by
  intro pv hpv
  simp only [subsOk, Bool.and_eq_true] at hsubs
  obtain ⟨⟨⟨⟨⟨⟨h1, h2⟩, h3⟩, h4⟩, h5⟩, h6⟩, h7⟩ := hsubs
  simp [substPairs] at hpv
  rcases hpv with h | h | h | h | h | h | h <;> subst h
  · exact ⟨fun c hc => (by decide : ∀ x ∈ str "REGION", x ≠ '}') c hc, h1⟩
  · exact ⟨fun c hc => (by decide : ∀ x ∈ str "TIMESTAMP", x ≠ '}') c hc, h2⟩
  · exact ⟨fun c hc => (by decide : ∀ x ∈ str "CREATED_AT", x ≠ '}') c hc, h3⟩
  · exact ⟨fun c hc => (by decide : ∀ x ∈ str "DEPLOYMENT_NAME", x ≠ '}') c hc, h4⟩
  · exact ⟨fun c hc => (by decide : ∀ x ∈ str "SSH_PUBLIC_KEY", x ≠ '}') c hc, h5⟩
  · exact ⟨fun c hc => (by decide : ∀ x ∈ str "YOUR_IP", x ≠ '}') c hc, h6⟩
  · exact ⟨fun c hc => (by decide : ∀ x ∈ str "ADMIN_PASSWORD", x ≠ '}') c hc, h7⟩

/-- Literal segments pass through every substitution. -/
theorem foldl_replaceTok_lit (pairs : List (Str × Str)) (s : Str) :
    pairs.foldl (fun y pv => replaceTokSeg pv.1 pv.2 y) (Seg.lit s) = Seg.lit s := by
  induction pairs with
  | nil => rfl
  | cons p ps ih => rw [List.foldl_cons]; exact ih

/-- A token whose name matches no pair passes through the fold. -/
theorem foldl_replaceTok_ne (pairs : List (Str × Str)) (n : Str)
    (h : ∀ pv ∈ pairs, n ≠ pv.1) :
    pairs.foldl (fun y pv => replaceTokSeg pv.1 pv.2 y) (Seg.tok n) = Seg.tok n := by
  induction pairs with
  | nil => rfl
  | cons p ps ih =>
    rw [List.foldl_cons,
      show replaceTokSeg p.1 p.2 (Seg.tok n) = Seg.tok n from by
        simp [replaceTokSeg, h p (List.mem_cons_self _ _)]]
    exact ih (fun pv hpv => h pv (List.mem_cons_of_mem _ hpv))

/-- Resolution keeps literal segments. -/
theorem resolveSeg_lit (subs : Subs) (s : Str) : resolveSeg subs (Seg.lit s) = Seg.lit s :=
  foldl_replaceTok_lit _ s

/-- Every substitution pair's name is a declared name. -/
theorem mem_substPairs_name (subs : Subs) :
    ∀ pv ∈ substPairs subs, pv.1 ∈ declaredNames := by
  intro pv hpv
  simp [substPairs] at hpv
  rcases hpv with h | h | h | h | h | h | h <;> subst h <;> simp [declaredNames]

/-- Undeclared tokens pass through resolution unchanged. -/
theorem resolveSeg_tok_undeclared (subs : Subs) (n : Str) (h : ¬n ∈ declaredNames) :
    resolveSeg subs (Seg.tok n) = Seg.tok n := by
  apply foldl_replaceTok_ne
  intro pv hpv hn
  exact h (hn ▸ mem_substPairs_name subs pv hpv)

/-- Declared tokens resolve to their (dollar-free) substitution value. -/
theorem resolveSeg_tok_declared (subs : Subs) (n : Str) (h : n ∈ declaredNames) :
    ∃ v, resolveSeg subs (Seg.tok n) = Seg.lit v ∧
      (subsOk subs = true → dollarFree v = true) := by
  have hex : ∀ hs : subsOk subs = true,
      dollarFree subs.region = true ∧ dollarFree subs.timestamp = true ∧
      dollarFree subs.createdAt = true ∧ dollarFree subs.deploymentName = true ∧
      dollarFree subs.sshPublicKey = true ∧ dollarFree subs.yourIp = true ∧
      dollarFree subs.adminPassword = true := by
    intro hs
    simp only [subsOk, Bool.and_eq_true] at hs
    obtain ⟨⟨⟨⟨⟨⟨h1, h2⟩, h3⟩, h4⟩, h5⟩, h6⟩, h7⟩ := hs
    exact ⟨h1, h2, h3, h4, h5, h6, h7⟩
  simp [declaredNames] at h
  rcases h with h | h | h | h | h | h | h <;> subst h
  · exact ⟨subs.region, rfl, fun hs => (hex hs).1⟩
  · exact ⟨subs.timestamp, rfl, fun hs => (hex hs).2.1⟩
  · exact ⟨subs.createdAt, rfl, fun hs => (hex hs).2.2.1⟩
  · exact ⟨subs.deploymentName, rfl, fun hs => (hex hs).2.2.2.1⟩
  · exact ⟨subs.sshPublicKey, rfl, fun hs => (hex hs).2.2.2.2.1⟩
  · exact ⟨subs.yourIp, rfl, fun hs => (hex hs).2.2.2.2.2.1⟩
  · exact ⟨subs.adminPassword, rfl, fun hs => (hex hs).2.2.2.2.2.2⟩

/-- Resolution keeps a segment list well-formed. -/
theorem segsOk_resolve (subs : Subs) (hsubs : subsOk subs = true) :
    ∀ segs, segsOk segs = true → segsOk (segs.map (resolveSeg subs)) = true := by
  intro segs h
  apply List.all_eq_true.mpr
  intro x hx
  simp at hx
  obtain ⟨sg, hmem, hres⟩ := hx
  have hsg := List.all_eq_true.mp h sg hmem
  cases sg with
  | lit s => rw [← hres, resolveSeg_lit]; exact hsg
  | tok n =>
    by_cases hd : n ∈ declaredNames
    · obtain ⟨v, hv, hdv⟩ := resolveSeg_tok_declared subs n hd
      rw [← hres, hv]
      exact hdv hsubs
    · rw [← hres, resolveSeg_tok_undeclared subs n hd]; exact hsg

/-- After resolution, any remaining token is undeclared. -/
theorem resolved_tok_not_declared (subs : Subs) (segs : List Seg) :
    ∀ n, Seg.tok n ∈ segs.map (resolveSeg subs) → ¬n ∈ declaredNames := by
  intro n hn hd
  simp at hn
  obtain ⟨sg, hmem, hres⟩ := hn
  cases sg with
  | lit s =>
    rw [resolveSeg_lit] at hres
    exact Seg.noConfusion hres
  | tok m =>
    by_cases hmd : m ∈ declaredNames
    · obtain ⟨v, hv, _⟩ := resolveSeg_tok_declared subs m hmd
      rw [hv] at hres
      exact Seg.noConfusion hres
    · rw [resolveSeg_tok_undeclared subs m hmd] at hres
      exact hmd (Seg.tok.inj hres ▸ hd)

/-- A pattern absent from every position is not contained. -/
theorem containsPat_false_of (S pat : Str)
    (h : ∀ k, pat.isPrefixOf (List.drop k S) = false) : containsPat S pat = false := by
  simp only [containsPat, List.any_eq_false]
  intro k _
  simp [h k]

/-- Dropping past an initial block. -/
theorem drop_append_len (l₁ : Str) : ∀ (l₂ : Str) (n : Nat),
    List.drop (l₁.length + n) (l₁ ++ l₂) = List.drop n l₂ := by
  induction l₁ with
  | nil => intro l₂ n; simp
  | cons c t ih =>
    intro l₂ n
    have harith : (c :: t).length + n = (t.length + n) + 1 := by
      simp [List.length_cons]; omega
    rw [harith, List.cons_append, List.drop_succ_cons]
    exact ih l₂ n

/-- The token for `T` occurs nowhere in the text of a well-formed segment
list none of whose tokens is named `T`. -/
theorem segs_no_tok (T : Str) (hTname : ∀ c ∈ T, c ≠ '}') :
    ∀ segs, segsOk segs = true → (∀ n, Seg.tok n ∈ segs → n ≠ T) →
      ∀ k, (tokOf T).isPrefixOf (List.drop k (segsChars segs)) = false := by
  intro segs
  induction segs with
  | nil =>
    intro _ _ k
    rw [show segsChars [] = ([] : Str) from rfl, List.drop_nil]
    rfl
  | cons sg rest ih =>
    intro hok hne k
    have hall := List.all_eq_true.mp hok
    have hsg : segOk sg = true := hall sg (List.mem_cons_self _ _)
    have hrest : segsOk rest = true :=
      List.all_eq_true.mpr (fun x hx => hall x (List.mem_cons_of_mem _ hx))
    have hchars : segsChars (sg :: rest) = segChars sg ++ segsChars rest := by
      simp [segsChars]
    rw [hchars]
    by_cases hk : k < (segChars sg).length
    · apply seg_scan T hTname sg hsg ?_ (segsChars rest) k hk
      intro n hn
      apply hne n
      rw [← hn]
      exact List.mem_cons_self _ _
    · push_neg at hk
      have hk2 : k = (segChars sg).length + (k - (segChars sg).length) := by omega
      rw [hk2, drop_append_len]
      exact ih hrest (fun n hn => hne n (List.mem_cons_of_mem _ hn)) _

/-- A pattern placed between two regions is contained. -/
theorem containsPat_append_self (pre pat post : Str) :
    containsPat (pre ++ pat ++ post) pat = true := by
  apply List.any_eq_true.mpr
  refine ⟨pre.length, ?_, ?_⟩
  · apply List.mem_range.mpr
    simp [List.length_append]
    omega
  · rw [List.append_assoc, List.drop_left]
    exact isPrefixOf_self_append pat post

/-- Claim C4 (amended): for templates built from dollar-free literal chunks
and brace-free placeholder tokens, with all seven substitution values
dollar-free, rendering replaces all occurrences of each declared placeholder
token with its value (in dict order), the output contains no occurrence of
any declared placeholder token, tokens outside the map pass through
unchanged, and rendering is deterministic.  Without the dollar-freeness
guard the no-residual-token part fails (see the counterexample): a
substitution value can itself re-introduce a placeholder token. -/
theorem c4_render_contract :
    ∀ (segs : List Seg) (subs : Subs), segsOk segs = true → subsOk subs = true →
      (renderTemplate (segsChars segs) subs = segsChars (segs.map (resolveSeg subs))) ∧
      (∀ T, T ∈ declaredNames →
        containsPat (renderTemplate (segsChars segs) subs) (tokOf T) = false) ∧
      (∀ n, Seg.tok n ∈ segs → ¬n ∈ declaredNames →
        containsPat (renderTemplate (segsChars segs) subs) (tokOf n) = true) ∧
      (∀ tmpl₂ subs₂, tmpl₂ = segsChars segs → subs₂ = subs →
        renderTemplate tmpl₂ subs₂ = renderTemplate (segsChars segs) subs) := by
  intro segs subs hsegs hsubs
  have hmain : renderTemplate (segsChars segs) subs =
      segsChars (segs.map (resolveSeg subs)) := by
    unfold renderTemplate
    rw [renderTemplate_segs_aux (substPairs subs) segs
      (substPairs_names_ok subs hsubs) hsegs, foldl_map_segs]
    rfl
  refine ⟨hmain, ?_, ?_, ?_⟩
  · intro T hT
    rw [hmain]
    apply containsPat_false_of
    apply segs_no_tok T ?_ (segs.map (resolveSeg subs))
      (segsOk_resolve subs hsubs segs hsegs) ?_
    · have : ∀ x ∈ declaredNames, ∀ c ∈ x, c ≠ '}' := by decide
      exact this T hT
    · intro n hn hEq
      exact resolved_tok_not_declared subs segs n hn (hEq ▸ hT)
  · intro n hn hnd
    rw [hmain]
    have hmem : Seg.tok n ∈ segs.map (resolveSeg subs) :=
      List.mem_map.mpr ⟨Seg.tok n, hn, resolveSeg_tok_undeclared subs n hnd⟩
    obtain ⟨l1, l2, hsplit⟩ := List.append_of_mem hmem
    rw [hsplit]
    have hflat : segsChars (l1 ++ Seg.tok n :: l2) =
        segsChars l1 ++ (tokOf n ++ segsChars l2) := by
      simp [segsChars]
      rfl
    rw [hflat, ← List.append_assoc]
    exact containsPat_append_self (segsChars l1) (tokOf n) (segsChars l2)
  · intro tmpl₂ subs₂ h1 h2
    rw [h1, h2]

/-- Counterexample to C4 as stated: all seven placeholders are mapped, but
the ADMIN_PASSWORD value itself contains the REGION placeholder token, so
the rendered output still contains a declared placeholder token. -/
theorem c4_claim_counterexample :
    containsPat
      (renderTemplate (tokOf (str "ADMIN_PASSWORD"))
        { region := str "lon1", timestamp := str "t", createdAt := str "c",
          deploymentName := str "d", sshPublicKey := str "k", yourIp := str "i",
          adminPassword := tokOf (str "REGION") })
      (tokOf (str "REGION")) = true := by
  decide

/-- A concrete segment template for the C4 witness: two declared tokens, two
literals and one undeclared token. -/
def demoSegs : List Seg :=
  [Seg.lit (str "region = "), Seg.tok (str "REGION"),
   Seg.lit (str " ip = "), Seg.tok (str "YOUR_IP"),
   Seg.tok (str "UNDECLARED")]

/-- Concrete substitutions for the C4 witness. -/
def demoSubs : Subs :=
  { region := str "lon1", timestamp := str "2025-09-01T00:00:00Z",
    createdAt := str "2025-09-01 00:00:00 UTC", deploymentName := str "wvpn",
    sshPublicKey := str "ssh-ed25519 AAAA", yourIp := str "203.0.113.7",
    adminPassword := str "pw1234567890" }

/-- Witness for C4: on the demo template the rendering equals the resolved
segment text and the REGION token is gone from the output. -/
theorem c4_witness :
    renderTemplate (segsChars demoSegs) demoSubs =
      segsChars (demoSegs.map (resolveSeg demoSubs)) ∧
    containsPat (renderTemplate (segsChars demoSegs) demoSubs)
      (tokOf (str "REGION")) = false :=
  ⟨(c4_render_contract demoSegs demoSubs (by decide) (by decide)).1,
   (c4_render_contract demoSegs demoSubs (by decide) (by decide)).2.1
     (str "REGION") (by decide)⟩

end Wardrobe
